import Mathlib

/-!
Verification of the `regexp_extract` DataFusion UDF (src/src/lib.rs).

The crate defines a request binder (`RegexpExtractRequest::set`, `is_usable`)
and an extractor (`RegexpExtractRequest::fulfill`, `single_regex_extract`)
that maps a compiled regular expression over a batch of optional strings.

The external `regex` crate is modelled abstractly by `RegexEngine`:
`compile` says whether `Regex::new` succeeds on a pattern, `captures`
models `Regex::captures`, which returns the capture groups of the
leftmost-first match (index 0 is the whole match, index k the text of the
k-th parenthesized group, `none` when that group did not participate),
and `groupCount` models the number of capture groups the pattern declares
(the `regex` crate guarantees a `Captures` has `groupCount + 1` entries).

Arrow and DataFusion values are modelled structurally: a `StringArray` is a
`List (Option String)`, `ScalarValue` and `ColumnarValue` keep the variants
the source matches on plus a catch-all for every other runtime shape.
-/

set_option autoImplicit false

/-- Abstract model of the external `regex` crate used by the extractor. -/
structure RegexEngine where
  compile : String → Bool
  captures : String → String → Option (List (Option String))
  groupCount : String → Nat

/-- Model of `datafusion::common::ScalarValue` restricted to the variants the
binder inspects, with a catch-all for every other scalar shape. -/
inductive ScalarValue where
  | Utf8 : Option String → ScalarValue
  | Int64 : Option Int → ScalarValue
  | otherScalar : ScalarValue

/-- Model of an Arrow `ArrayRef`: either a `StringArray` (a batch of optional
strings) or an array of some other element type, on which the
`downcast_ref::<StringArray>()` in the binder fails. -/
inductive ArrayData where
  | stringArr : List (Option String) → ArrayData
  | otherArr : ArrayData

/-- Model of `array.as_any().downcast_ref::<StringArray>().cloned()`. -/
def ArrayData.downcastStringArray : ArrayData → Option (List (Option String))
  | .stringArr l => some l
  | .otherArr => none

/-- Model of `datafusion::physical_plan::ColumnarValue`. -/
inductive ColumnarValue where
  | Array : ArrayData → ColumnarValue
  | Scalar : ScalarValue → ColumnarValue

/-- Model of `std::any::type_name_of_val(value)` where `value` has static type
`&ColumnarValue`: it returns the static type name, which is the same string
for every runtime variant of the value. -/
def type_name_of_val (_value : ColumnarValue) : String :=
  "&datafusion::physical_plan::ColumnarValue"

/-- The error message built in the catch-all arm of `RegexpExtractRequest::set`
(`format!("Wrong columnar value type expected {} got {}", field, type_name_of_val(value))`). -/
def wrongTypeMsg (field : String) (value : ColumnarValue) : String :=
  "Wrong columnar value type expected " ++ field ++ " got " ++ type_name_of_val value

/-- Model of the struct `RegexpExtractRequest` (src/src/lib.rs lines 11-16). -/
structure RegexpExtractRequest where
  input : Option (List (Option String))
  regex : Option String
  group : Option Int

/-- Model of `RegexpExtractRequest::new`. -/
def RegexpExtractRequest.new : RegexpExtractRequest :=
  { input := none, regex := none, group := none }

/-- Model of `RegexpExtractRequest::set` (src/src/lib.rs lines 29-42). The
`&mut self` mutation becomes a returned record; the `Result<()>` becomes
`Except String RegexpExtractRequest`. Note the `input` arm stores the result
of the downcast, which is `none` when the array is not a `StringArray`, and
still returns `Ok`. -/
def RegexpExtractRequest.set (self : RegexpExtractRequest) (field : String)
    (value : ColumnarValue) : Except String RegexpExtractRequest :=
  match value, field with
  | .Array array, "input" => .ok { self with input := array.downcastStringArray }
  | .Scalar (.Utf8 (some string)), "regex" => .ok { self with regex := some string }
  | .Scalar (.Int64 (some i)), "group" => .ok { self with group := some i }
  | _, _ => .error (wrongTypeMsg field value)

/-- Model of `RegexpExtractRequest::is_usable`. -/
def RegexpExtractRequest.is_usable (self : RegexpExtractRequest) : Bool :=
  self.input.isSome && self.regex.isSome && self.group.isSome

/-- Model of arrow's `ArrowNativeType::as_usize` for `i64` on a 64-bit target,
i.e. the Rust cast `i as usize`, which wraps modulo 2^64. -/
def as_usize (i : Int) : Nat :=
  (i % (2 : Int) ^ 64).toNat

/-- Model of `single_regex_extract` (src/src/lib.rs lines 82-88):
`regex.captures(input_str).and_then(|cap| cap.get(group)).map(|m| m.as_str().to_string()).unwrap_or_default()`.
`cap.get(group)` is `none` when `group` is at or beyond the captures length
or when the group did not participate in the match; `m.as_str().to_string()`
is the matched substring itself. The compiled `Regex` argument is represented
by the engine together with the pattern it was compiled from. -/
def single_regex_extract (eng : RegexEngine) (input_str : String) (regex : String)
    (group : Nat) : String :=
  ((eng.captures regex input_str).bind fun cap => cap[group]?.join).getD ""

/-- Model of `RegexpExtractRequest::fulfill` (src/src/lib.rs lines 49-79).
The `unwrap()` calls are guarded by `is_usable`, so they are rendered with
`getD` defaults; `StringArray::from(vec![""])` is the single-row fallback
`[some ""]`; the output iterator wraps every row in `Some(...)`. -/
def RegexpExtractRequest.fulfill (self : RegexpExtractRequest) (eng : RegexEngine) :
    List (Option String) :=
  if self.is_usable then
    if eng.compile (self.regex.getD "") then
      (self.input.getD []).map fun s =>
        some (single_regex_extract eng (s.getD "") (self.regex.getD "")
          (as_usize (self.group.getD 0)))
    else [some ""]
  else [some ""]

/-- Outcome of one call of the scalar-UDF closure: Rust `Err` from a `?`,
Rust `Ok`, or a panic from out-of-bounds slice indexing (`args[k]`). -/
inductive UdfOutcome where
  | panicked : UdfOutcome
  | err : String → UdfOutcome
  | ok : List (Option String) → UdfOutcome

/-- True exactly on the `ok` outcome. -/
def UdfOutcome.isOk : UdfOutcome → Bool
  | .ok _ => true
  | _ => false

/-- Model of the closure registered by `register_regexp_extract_udf`
(src/src/lib.rs lines 104-112): it indexes `args[0]`, `args[1]`, `args[2]`
unconditionally (panicking when absent), threads each `set` through `?`,
and returns `Ok(fulfill())`. -/
def regexp_extract_impl (eng : RegexEngine) (args : List ColumnarValue) : UdfOutcome :=
  match args[0]? with
  | none => .panicked
  | some a0 =>
    match RegexpExtractRequest.new.set "input" a0 with
    | .error e => .err e
    | .ok req1 =>
      match args[1]? with
      | none => .panicked
      | some a1 =>
        match req1.set "regex" a1 with
        | .error e => .err e
        | .ok req2 =>
          match args[2]? with
          | none => .panicked
          | some a2 =>
            match req2.set "group" a2 with
            | .error e => .err e
            | .ok req3 => .ok (req3.fulfill eng)

/-- Boolean side condition used for the negative-group claim: every captures
list the engine can produce on this input batch has at most 2^63 entries.
Any real engine satisfies this, since a pattern declares fewer groups than
its length. -/
def capsBounded (eng : RegexEngine) (regex : String) (input : List (Option String)) : Bool :=
  input.all fun s =>
    match eng.captures regex (s.getD "") with
    | none => true
    | some c => decide (c.length ≤ 2 ^ 63)

/-- Concrete engine used to instantiate hypotheses on sample inputs: it
compiles exactly the pattern "pat", which has two capture groups and matches
exactly the text "abc123" with groups "abc" and "123". -/
def testEngine : RegexEngine where
  compile p := p == "pat"
  captures p s :=
    if p == "pat" && s == "abc123" then
      some [some "abc123", some "abc", some "123"]
    else
      none
  groupCount p := if p == "pat" then 2 else 0

/-! Helper lemmas shared by several claim theorems. -/

/-- On a usable request with a compiling pattern, `fulfill` is the map of the
per-row extraction over the input batch. -/
theorem fulfill_eq_map (eng : RegexEngine) (r : RegexpExtractRequest)
    (input : List (Option String)) (regex : String) (g : Int)
    (hi : r.input = some input) (hr : r.regex = some regex) (hg : r.group = some g)
    (hc : eng.compile regex = true) :
    r.fulfill eng = input.map fun s =>
      some (single_regex_extract eng (s.getD "") regex (as_usize g)) := by
  simp [RegexpExtractRequest.fulfill, RegexpExtractRequest.is_usable, hi, hr, hg, hc]

/-- Mapping a function over a list agrees with mapping it after overwriting one
position, provided the function takes the same value on the old and new entries. -/
theorem map_set_congr {α β : Type} (f : α → β) :
    ∀ (l : List α) (i : Nat) (a b : α), l[i]? = some a → f a = f b →
      (l.set i b).map f = l.map f := by
  intro l
  induction l with
  | nil => intro i a b h _; cases h
  | cons x xs ih =>
    intro i a b h hf
    cases i with
    | zero =>
      simp only [List.getElem?_cons_zero, Option.some.injEq] at h
      subst h
      simp [List.set, hf.symm]
    | succ j =>
      simp only [List.getElem?_cons_succ] at h
      simp only [List.set, List.map_cons]
      rw [ih j a b h hf]

/-- A map whose function is constant on the list's members is a `replicate`. -/
theorem map_eq_replicate_of_mem {α β : Type} (f : α → β) (c : β) :
    ∀ l : List α, (∀ x ∈ l, f x = c) → l.map f = List.replicate l.length c := by
  intro l
  induction l with
  | nil => intro _; rfl
  | cons x xs ih =>
    intro h
    simp only [List.map_cons, List.length_cons, List.replicate]
    rw [h x (by simp), ih fun y hy => h y (by simp [hy])]

/-- C1: for every complete request whose pattern compiles, the result batch has
the same length as the input batch, with one output row per input row in input
order. -/
theorem fulfill_length_preserved (eng : RegexEngine) (r : RegexpExtractRequest)
    (input : List (Option String)) (regex : String) (g : Int)
    (hi : r.input = some input) (hr : r.regex = some regex) (hg : r.group = some g)
    (hc : eng.compile regex = true) :
    (r.fulfill eng).length = input.length ∧
    ∀ i : Nat, (r.fulfill eng)[i]? = input[i]?.map fun s =>
      some (single_regex_extract eng (s.getD "") regex (as_usize g)) := by
  rw [fulfill_eq_map eng r input regex g hi hr hg hc]
  exact ⟨List.length_map _ _, fun i => List.getElem?_map _ _ _⟩

/-- Witness for C1 at a concrete one-row request. -/
theorem fulfill_length_preserved_inst :
    ((⟨some [some "abc123"], some "pat", some 2⟩ : RegexpExtractRequest).fulfill
      testEngine).length = 1 :=
  (fulfill_length_preserved testEngine _ [some "abc123"] "pat" 2 rfl rfl rfl rfl).1

/-- C2: an incomplete request, or a complete one whose pattern fails to
compile, yields the single-row empty-string fallback, whatever the input
batch's length; `fulfill` is total, so no error is raised. -/
theorem fulfill_fallback_single_empty (eng : RegexEngine) (r : RegexpExtractRequest)
    (h : r.is_usable = false ∨ ∃ regex, r.regex = some regex ∧ eng.compile regex = false) :
    r.fulfill eng = [some ""] := by
  rcases h with h | ⟨regex, hr, hc⟩
  · simp [RegexpExtractRequest.fulfill, h]
  · by_cases hu : r.is_usable = true
    · simp [RegexpExtractRequest.fulfill, hu, hr, hc]
    · simp [RegexpExtractRequest.fulfill, hu]

/-- Witness for C2: an empty request falls back to the single empty row. -/
theorem fulfill_fallback_single_empty_inst :
    RegexpExtractRequest.new.fulfill testEngine = [some ""] :=
  fulfill_fallback_single_empty testEngine RegexpExtractRequest.new (Or.inl rfl)

/-- C6: no element of the result batch is ever absent, on the normal path and
on the fallback path alike. -/
theorem fulfill_no_nulls (eng : RegexEngine) (r : RegexpExtractRequest) :
    (r.fulfill eng).all Option.isSome = true := by
  unfold RegexpExtractRequest.fulfill
  split
  · split
    · simp [List.all_map, Function.comp]
    · simp
  · simp

/-- C3: a row on which the pattern does not match, or whose requested group
index exceeds the declared group count, or whose requested group did not
participate in the match, yields the empty string — present, not absent, and
with no error since `fulfill` is total. -/
theorem row_empty_when_unresolvable (eng : RegexEngine) (r : RegexpExtractRequest)
    (input : List (Option String)) (regex : String) (g : Int) (i : Nat) (os : Option String)
    (hi : r.input = some input) (hr : r.regex = some regex) (hg : r.group = some g)
    (hc : eng.compile regex = true) (hrow : input[i]? = some os)
    (hcond :
      eng.captures regex (os.getD "") = none
      ∨ (∃ caps, eng.captures regex (os.getD "") = some caps ∧
          caps.length = eng.groupCount regex + 1 ∧ eng.groupCount regex < as_usize g)
      ∨ (∃ caps, eng.captures regex (os.getD "") = some caps ∧
          caps[as_usize g]? = some none)) :
    (r.fulfill eng)[i]? = some (some "") := by
  have hempty : single_regex_extract eng (os.getD "") regex (as_usize g) = "" := by
    rcases hcond with h | ⟨caps, hcap, hlen, hlt⟩ | ⟨caps, hcap, hnone⟩
    · simp [single_regex_extract, h]
    · have hnone : caps[as_usize g]? = none := List.getElem?_eq_none (by omega)
      simp [single_regex_extract, hcap, hnone]
    · simp [single_regex_extract, hcap, hnone]
  rw [fulfill_eq_map eng r input regex g hi hr hg hc, List.getElem?_map, hrow]
  simp [hempty]

/-- Witness for C3: the pattern "pat" does not match "zzz", so the row yields
the empty string. -/
theorem row_empty_when_unresolvable_inst :
    ((⟨some [some "zzz"], some "pat", some 1⟩ : RegexpExtractRequest).fulfill
      testEngine)[0]? = some (some "") :=
  row_empty_when_unresolvable testEngine ⟨some [some "zzz"], some "pat", some 1⟩
    [some "zzz"] "pat" 1 0 (some "zzz") rfl rfl rfl rfl rfl (Or.inl rfl)

/-- C4: on a row where the pattern matches, the output is exactly the text the
engine captured for the requested group of that (leftmost-first) match —
index 0 of the captures being the full match text — with no trimming or
normalization. -/
theorem row_yields_captured_substring (eng : RegexEngine) (r : RegexpExtractRequest)
    (input : List (Option String)) (regex : String) (g : Int) (i : Nat) (s : String)
    (caps : List (Option String)) (sub : String)
    (hi : r.input = some input) (hr : r.regex = some regex) (hg : r.group = some g)
    (hc : eng.compile regex = true) (hrow : input[i]? = some (some s))
    (hcap : eng.captures regex s = some caps)
    (hsub : caps[as_usize g]? = some (some sub)) :
    (r.fulfill eng)[i]? = some (some sub) := by
  have hval : single_regex_extract eng s regex (as_usize g) = sub := by
    simp [single_regex_extract, hcap, hsub]
  rw [fulfill_eq_map eng r input regex g hi hr hg hc, List.getElem?_map, hrow]
  simp [hval]

/-- Witness for C4: group 2 of "pat" on "abc123" captures "123". -/
theorem row_yields_captured_substring_inst :
    ((⟨some [some "abc123"], some "pat", some 2⟩ : RegexpExtractRequest).fulfill
      testEngine)[0]? = some (some "123") :=
  row_yields_captured_substring testEngine ⟨some [some "abc123"], some "pat", some 2⟩
    [some "abc123"] "pat" 2 0 "abc123"
    [some "abc123", some "abc", some "123"] "123" rfl rfl rfl rfl rfl rfl rfl

/-- C5: a null input row produces exactly the output an empty-string row would:
overwriting a null row with the empty string leaves the whole result batch
unchanged. -/
theorem null_row_same_as_empty_row (eng : RegexEngine) (r : RegexpExtractRequest)
    (input : List (Option String)) (i : Nat)
    (hi : r.input = some input) (hnull : input[i]? = some none) :
    r.fulfill eng =
      ({ r with input := some (input.set i (some "")) } : RegexpExtractRequest).fulfill eng := by
  obtain ⟨i0, re0, g0⟩ := r
  simp only at hi
  subst hi
  cases re0 with
  | none => rfl
  | some regex =>
    cases g0 with
    | none => rfl
    | some g =>
      by_cases hc : eng.compile regex = true
      · simp only [RegexpExtractRequest.fulfill, RegexpExtractRequest.is_usable,
          Option.isSome_some, Bool.and_self, if_true, Option.getD_some, hc]
        exact (map_set_congr
          (fun (s : Option String) =>
            some (single_regex_extract eng (s.getD "") regex (as_usize g)))
          input i none (some "") hnull rfl).symm
      · simp [RegexpExtractRequest.fulfill, RegexpExtractRequest.is_usable, hc]

/-- Witness for C5 at a one-row batch whose only row is null. -/
theorem null_row_same_as_empty_row_inst :
    (⟨some [none], some "pat", some 2⟩ : RegexpExtractRequest).fulfill testEngine =
      (⟨some (([none] : List (Option String)).set 0 (some "")), some "pat", some 2⟩ :
        RegexpExtractRequest).fulfill testEngine :=
  null_row_same_as_empty_row testEngine ⟨some [none], some "pat", some 2⟩ [none] 0 rfl rfl

/-- Counterexample for C7: an input argument that is an Array of a non-text
element type does not produce a binding error — `set` returns `Ok` and leaves
the `input` field unset. -/
theorem input_wrong_array_accepted :
    RegexpExtractRequest.new.set "input" (ColumnarValue.Array ArrayData.otherArr)
      = Except.ok { input := none, regex := none, group := none } := rfl

/-- C7 (amended): for `regex` and `group`, any value other than the accepted
non-absent scalar yields the binding error built from the field name and the
static type name of the columnar value (the same string for every variant, so
the actual shape received is not distinguished); for `input`, a non-Array
value yields that error, but an Array whose element type is not text is
accepted with `Ok` and leaves `input` unset. -/
theorem set_shape_error_behavior (r : RegexpExtractRequest) (v : ColumnarValue) :
    ((∀ a, v ≠ ColumnarValue.Array a) →
      r.set "input" v = Except.error (wrongTypeMsg "input" v)) ∧
    ((∀ s, v ≠ ColumnarValue.Scalar (ScalarValue.Utf8 (some s))) →
      r.set "regex" v = Except.error (wrongTypeMsg "regex" v)) ∧
    ((∀ i, v ≠ ColumnarValue.Scalar (ScalarValue.Int64 (some i))) →
      r.set "group" v = Except.error (wrongTypeMsg "group" v)) ∧
    r.set "input" (ColumnarValue.Array ArrayData.otherArr) =
      Except.ok { r with input := none } := by
  refine ⟨?_, ?_, ?_, rfl⟩
  · intro h
    rcases v with a | sv
    · exact absurd rfl (h a)
    · rcases sv with os | oi | _
      · rcases os with _ | s <;> rfl
      · rcases oi with _ | i <;> rfl
      · rfl
  · intro h
    rcases v with a | sv
    · rfl
    · rcases sv with os | oi | _
      · rcases os with _ | s
        · rfl
        · exact absurd rfl (h s)
      · rcases oi with _ | i <;> rfl
      · rfl
  · intro h
    rcases v with a | sv
    · rfl
    · rcases sv with os | oi | _
      · rcases os with _ | s <;> rfl
      · rcases oi with _ | i
        · rfl
        · exact absurd rfl (h i)
      · rfl

/-- Witness for C7 at a scalar of a shape that is neither text nor integer. -/
theorem set_shape_error_behavior_inst :
    RegexpExtractRequest.new.set "regex" (ColumnarValue.Scalar ScalarValue.otherScalar)
      = Except.error (wrongTypeMsg "regex" (ColumnarValue.Scalar ScalarValue.otherScalar)) :=
  (set_shape_error_behavior RegexpExtractRequest.new
    (ColumnarValue.Scalar ScalarValue.otherScalar)).2.1 (fun s h => by simp at h)

/-- Counterexample for C8: a null pattern scalar is surfaced as a binding
error, not degraded to an empty-string result. -/
theorem null_regex_scalar_errors :
    RegexpExtractRequest.new.set "regex" (ColumnarValue.Scalar (ScalarValue.Utf8 none))
      = Except.error (wrongTypeMsg "regex" (ColumnarValue.Scalar (ScalarValue.Utf8 none))) := rfl

/-- C8 (amended): an absent pattern scalar or an absent group scalar supplied
at call time is surfaced by the binder as the wrong-columnar-value-type error;
the invocation fails rather than degrading to an empty-string result. -/
theorem null_scalar_surfaces_error (eng : RegexEngine) (a0 : ColumnarValue)
    (r1 : RegexpExtractRequest)
    (h0 : RegexpExtractRequest.new.set "input" a0 = Except.ok r1) :
    regexp_extract_impl eng [a0, ColumnarValue.Scalar (ScalarValue.Utf8 none),
        ColumnarValue.Scalar (ScalarValue.Int64 (some 0))]
      = UdfOutcome.err (wrongTypeMsg "regex" (ColumnarValue.Scalar (ScalarValue.Utf8 none))) ∧
    ∀ s : String, regexp_extract_impl eng [a0, ColumnarValue.Scalar (ScalarValue.Utf8 (some s)),
        ColumnarValue.Scalar (ScalarValue.Int64 none)]
      = UdfOutcome.err (wrongTypeMsg "group" (ColumnarValue.Scalar (ScalarValue.Int64 none))) := by
  constructor
  · simp only [regexp_extract_impl, List.getElem?_cons_zero, List.getElem?_cons_succ, h0]
    simp [RegexpExtractRequest.set]
  · intro s
    simp only [regexp_extract_impl, List.getElem?_cons_zero, List.getElem?_cons_succ, h0]
    simp [RegexpExtractRequest.set]

/-- Witness for C8 with a well-shaped input array and a null pattern scalar. -/
theorem null_scalar_surfaces_error_inst :
    regexp_extract_impl testEngine [ColumnarValue.Array (ArrayData.stringArr []),
        ColumnarValue.Scalar (ScalarValue.Utf8 none),
        ColumnarValue.Scalar (ScalarValue.Int64 (some 0))]
      = UdfOutcome.err (wrongTypeMsg "regex" (ColumnarValue.Scalar (ScalarValue.Utf8 none))) :=
  (null_scalar_surfaces_error testEngine (ColumnarValue.Array (ArrayData.stringArr []))
    ⟨some [], none, none⟩ rfl).1

/-- Counterexample for C9: with only two arguments supplied the invocation
panics on the out-of-bounds `args[2]` instead of taking the fallback path. -/
theorem missing_args_panics :
    regexp_extract_impl testEngine [ColumnarValue.Array (ArrayData.stringArr [some "x"]),
      ColumnarValue.Scalar (ScalarValue.Utf8 (some "pat"))] = UdfOutcome.panicked := rfl

/-- C9 (amended): when all three arguments are supplied but the input array
has a non-text element type, the `input` field remains unset, extraction does
not run, and the single-row fallback is returned without error; when fewer
than three arguments are supplied, the invocation never produces a result
batch — it panics on argument indexing, or errors earlier on a wrong shape. -/
theorem incomplete_binding_behavior (eng : RegexEngine) :
    (∀ (regex : String) (g : Int),
      regexp_extract_impl eng [ColumnarValue.Array ArrayData.otherArr,
        ColumnarValue.Scalar (ScalarValue.Utf8 (some regex)),
        ColumnarValue.Scalar (ScalarValue.Int64 (some g))] = UdfOutcome.ok [some ""]) ∧
    ∀ args : List ColumnarValue, args.length < 3 →
      (regexp_extract_impl eng args).isOk = false := by
  constructor
  · intro regex g
    rfl
  · intro args hlen
    rcases args with _ | ⟨a, _ | ⟨b, _ | ⟨c0, rest⟩⟩⟩
    · rfl
    · rcases h : RegexpExtractRequest.new.set "input" a with e | r1
      · simp [regexp_extract_impl, h, UdfOutcome.isOk]
      · simp [regexp_extract_impl, h, UdfOutcome.isOk]
    · rcases h : RegexpExtractRequest.new.set "input" a with e | r1
      · simp [regexp_extract_impl, h, UdfOutcome.isOk]
      · rcases h2 : r1.set "regex" b with e | r2
        · simp [regexp_extract_impl, h, h2, UdfOutcome.isOk]
        · simp [regexp_extract_impl, h, h2, UdfOutcome.isOk]
    · simp only [List.length_cons] at hlen
      omega

/-- Witness for C9 at the empty argument list. -/
theorem incomplete_binding_behavior_inst :
    (regexp_extract_impl testEngine []).isOk = false :=
  (incomplete_binding_behavior testEngine).2 [] (by decide)

/-- C10: a complete request with a compiling pattern and a negative i64 group
index raises no error: the cast to usize wraps the index to at least 2^63,
past the end of any captures list the engine can produce on this batch, so
every output row is the empty string. -/
theorem negative_group_yields_all_empty (eng : RegexEngine) (r : RegexpExtractRequest)
    (input : List (Option String)) (regex : String) (g : Int)
    (hi : r.input = some input) (hr : r.regex = some regex) (hg : r.group = some g)
    (hc : eng.compile regex = true)
    (hneg : g < 0) (hrange : -(2 ^ 63) ≤ g)
    (hbound : capsBounded eng regex input = true) :
    r.fulfill eng = List.replicate input.length (some "") := by
  have hbig : 9223372036854775808 ≤ as_usize g := by
    have h63 : -((2 : Int) ^ 63) = -9223372036854775808 := by norm_num
    rw [h63] at hrange
    unfold as_usize
    have h64 : (2 : Int) ^ 64 = 18446744073709551616 := by norm_num
    rw [h64]
    omega
  rw [fulfill_eq_map eng r input regex g hi hr hg hc]
  apply map_eq_replicate_of_mem
  intro os hos
  unfold capsBounded at hbound
  have hall := (List.all_eq_true.mp hbound) os hos
  cases hcap : eng.captures regex (os.getD "") with
  | none => simp [single_regex_extract, hcap]
  | some caps =>
    simp only [hcap] at hall
    have hlen : caps.length ≤ 2 ^ 63 := of_decide_eq_true hall
    have hlen2 : caps.length ≤ 9223372036854775808 := by norm_num at hlen; exact hlen
    have hnone : caps[as_usize g]? = none := List.getElem?_eq_none (by omega)
    simp [single_regex_extract, hcap, hnone]

/-- Witness for C10 at a two-row batch with group index -1. -/
theorem negative_group_yields_all_empty_inst :
    (⟨some [some "abc123", some "zzz"], some "pat", some (-1)⟩ :
        RegexpExtractRequest).fulfill testEngine
      = List.replicate ([some "abc123", some "zzz"] : List (Option String)).length (some "") :=
  negative_group_yields_all_empty testEngine
    ⟨some [some "abc123", some "zzz"], some "pat", some (-1)⟩
    [some "abc123", some "zzz"] "pat" (-1) rfl rfl rfl rfl (by decide) (by norm_num) rfl
